import Mathlib

/-!
Shallow embedding of the toy payment engine (src/engine/model.rs and
src/engine/processor.rs) and proofs about its account state machine.

Modelling conventions:
- rust_decimal::Decimal is modelled as Rat (exact signed decimal arithmetic;
  only addition, subtraction and order comparisons are used by the engine).
- u16 client ids and u32 transaction ids are modelled as Nat.
- The HashMap of stored transactions is modelled as an association list with
  lookup by key; the engine only inserts under a vacancy check, reads entries,
  and never deletes, so lookup-by-key is a faithful interface.
- The accounts HashMap of the processor is likewise an association list; the
  processor looks an account up by client id, updates it in place, or appends
  a fresh account on first sight of a client id.
-/

namespace PaymentEngine

/-- The five record kinds dispatched by ClientAccount::update (model.rs lines 10-21). -/
inductive TransactionType where
  | Deposit
  | Withdrawal
  | Dispute
  | Resolve
  | Chargeback
deriving DecidableEq

/-- Lifecycle statuses of a transaction (model.rs lines 24-35). -/
inductive TransactionStatus where
  | Loaded
  | Verified
  | Disputed
  | Resolved
  | Chargebacked
deriving DecidableEq

/-- A single transaction record (model.rs lines 45-56). Deserialized records
carry the default status Loaded. -/
structure Transaction where
  tx_type : TransactionType
  client_id : Nat
  tx_id : Nat
  amount : Option Rat
  status : TransactionStatus
deriving DecidableEq

/-- Lookup in the stored-transaction association list, mirroring
HashMap::get on the txs field. -/
def txsLookup : List (Nat × Transaction) → Nat → Option Transaction
  | [], _ => none
  | (k, t) :: rest, i => if k = i then some t else txsLookup rest i

/-- A client account (model.rs lines 59-68): three balances, the locked flag
and the private store of registered transactions keyed by transaction id. -/
structure ClientAccount where
  client_id : Nat
  available : Rat
  held : Rat
  total : Rat
  locked : Bool
  txs : List (Nat × Transaction)
deriving DecidableEq

namespace ClientAccount

/-- ClientAccount::new (model.rs lines 71-76): all balances zero, unlocked,
empty transaction store. -/
def new (client_id : Nat) : ClientAccount :=
  { client_id := client_id
    available := 0
    held := 0
    total := 0
    locked := false
    txs := [] }

/-- ClientAccount::deposit (model.rs lines 88-126). Guards in source order:
account not locked, transaction id vacant in the store, amount present and
positive. Effect: total and available grow by the amount and the record is
registered with status Verified. Any guard failure only logs and changes
nothing. -/
def deposit (self : ClientAccount) (data : Transaction) : ClientAccount :=
  if self.locked then self
  else if (txsLookup self.txs data.tx_id).isSome then self
  else
    match data.amount with
    | none => self
    | some amount =>
      if 0 < amount then
        { self with
            total := self.total + amount
            available := self.available + amount
            txs := (data.tx_id, { data with status := TransactionStatus.Verified }) :: self.txs }
      else self

/-- ClientAccount::withdrawal (model.rs lines 128-170). Guards in source
order: account not locked, transaction id vacant, amount present and
positive, available at least the amount. Effect: total and available shrink
by the amount and the record is registered with status Verified. -/
def withdrawal (self : ClientAccount) (data : Transaction) : ClientAccount :=
  if self.locked then self
  else if (txsLookup self.txs data.tx_id).isSome then self
  else
    match data.amount with
    | none => self
    | some amount =>
      if 0 < amount then
        if amount ≤ self.available then
          { self with
              total := self.total - amount
              available := self.available - amount
              txs := (data.tx_id, { data with status := TransactionStatus.Verified }) :: self.txs }
        else self
      else self

/-- ClientAccount::dispute (model.rs lines 172-215). Guards: the referenced
transaction is stored, its status is Verified, its amount is present, and
available is at least that amount. Effect on the balances: available shrinks
and held grows by the stored amount. The source line 184 assigns the Disputed
status to the by-value parameter data, which is dropped when the function
returns, so the stored transaction and its status are not modified; the
embedding therefore leaves the store untouched. -/
def dispute (self : ClientAccount) (data : Transaction) : ClientAccount :=
  match txsLookup self.txs data.tx_id with
  | none => self
  | some tx =>
    match tx.status with
    | TransactionStatus.Verified =>
      match tx.amount with
      | none => self
      | some amount =>
        if amount ≤ self.available then
          { self with
              available := self.available - amount
              held := self.held + amount }
        else self
    | _ => self

/-- ClientAccount::resolve (model.rs lines 217-260). Guards: the referenced
transaction is stored, its status is Disputed, its amount is present, and
held is at least that amount. Effect on the balances: available grows and
held shrinks by the stored amount. The source line 229 assigns the Resolved
status to the dropped by-value parameter data, so the stored transaction is
not modified. -/
def resolve (self : ClientAccount) (data : Transaction) : ClientAccount :=
  match txsLookup self.txs data.tx_id with
  | none => self
  | some tx =>
    match tx.status with
    | TransactionStatus.Disputed =>
      match tx.amount with
      | none => self
      | some amount =>
        if amount ≤ self.held then
          { self with
              available := self.available + amount
              held := self.held - amount }
        else self
    | _ => self

/-- ClientAccount::chargeback (model.rs lines 262-306). Guards: the
referenced transaction is stored, its status is Resolved (the source match
arm on line 268), its amount is present, and held is at least that amount.
Effect: total and held shrink by the stored amount and the account is
locked. The source line 275 assigns a Resolved status to the dropped
by-value parameter data, so the stored transaction is not modified. -/
def chargeback (self : ClientAccount) (data : Transaction) : ClientAccount :=
  match txsLookup self.txs data.tx_id with
  | none => self
  | some tx =>
    match tx.status with
    | TransactionStatus.Resolved =>
      match tx.amount with
      | none => self
      | some amount =>
        if amount ≤ self.held then
          { self with
              total := self.total - amount
              held := self.held - amount
              locked := true }
        else self
    | _ => self

/-- ClientAccount::update (model.rs lines 78-86): dispatch on the record
kind. -/
def update (self : ClientAccount) (data : Transaction) : ClientAccount :=
  match data.tx_type with
  | TransactionType.Deposit => self.deposit data
  | TransactionType.Withdrawal => self.withdrawal data
  | TransactionType.Dispute => self.dispute data
  | TransactionType.Resolve => self.resolve data
  | TransactionType.Chargeback => self.chargeback data

end ClientAccount

/-- Lookup in the accounts association list, mirroring HashMap::get on the
accounts map of process_transactions. -/
def accLookup : List (Nat × ClientAccount) → Nat → Option ClientAccount
  | [], _ => none
  | (k, a) :: rest, c => if k = c then some a else accLookup rest c

/-- One iteration of the loop in process_transactions (processor.rs lines
24-34): if an account for the client id of the record exists it is updated in
place, otherwise a fresh account is created, updated with the record, and
inserted. -/
def applyRecord : List (Nat × ClientAccount) → Transaction → List (Nat × ClientAccount)
  | [], r => [(r.client_id, ClientAccount.update (ClientAccount.new r.client_id) r)]
  | (c, a) :: rest, r =>
    if c = r.client_id then (c, ClientAccount.update a r) :: rest
    else (c, a) :: applyRecord rest r

/-- process_transactions (processor.rs lines 12-37) restricted to its core:
fold the decoded records, in input order, over an initially empty accounts
map. Decoding failures abort the whole run before reaching this fold, so the
core is total on the decoded sequence. -/
def process_transactions (records : List Transaction) : List (Nat × ClientAccount) :=
  records.foldl applyRecord []

/-!
Derived definitions used by the statements below: freshly decoded records
(status defaults to Loaded, as in the serde default), the balance invariants
of the spec, and the guard and effect decomposition of every update branch.
-/

/-- A freshly decoded Deposit record. -/
def depRec (c i : Nat) (q : Rat) : Transaction :=
  { tx_type := TransactionType.Deposit, client_id := c, tx_id := i
    amount := some q, status := TransactionStatus.Loaded }

/-- A freshly decoded Withdrawal record. -/
def wdRec (c i : Nat) (q : Rat) : Transaction :=
  { tx_type := TransactionType.Withdrawal, client_id := c, tx_id := i
    amount := some q, status := TransactionStatus.Loaded }

/-- A freshly decoded Dispute record; the amount column is absent. -/
def dispRec (c i : Nat) : Transaction :=
  { tx_type := TransactionType.Dispute, client_id := c, tx_id := i
    amount := none, status := TransactionStatus.Loaded }

/-- A freshly decoded Resolve record; the amount column is absent. -/
def resRec (c i : Nat) : Transaction :=
  { tx_type := TransactionType.Resolve, client_id := c, tx_id := i
    amount := none, status := TransactionStatus.Loaded }

/-- A freshly decoded Chargeback record; the amount column is absent. -/
def cbRec (c i : Nat) : Transaction :=
  { tx_type := TransactionType.Chargeback, client_id := c, tx_id := i
    amount := none, status := TransactionStatus.Loaded }

/-- A stored deposit of five units for client 1, transaction id 1, in the
given lifecycle status. -/
def storedDep (st : TransactionStatus) : Transaction :=
  { tx_type := TransactionType.Deposit, client_id := 1, tx_id := 1
    amount := some 5, status := st }

/-- An unlocked account holding one stored transaction of five units in the
given lifecycle status, with those five units currently held. -/
def heldAcct (st : TransactionStatus) : ClientAccount :=
  { client_id := 1, available := 0, held := 5, total := 5, locked := false
    txs := [(1, storedDep st)] }

/-- A locked account with five available units and a stored verified deposit
of five units. -/
def lockedAcct : ClientAccount :=
  { client_id := 1, available := 5, held := 0, total := 5, locked := true
    txs := [(1, storedDep TransactionStatus.Verified)] }

/-- An unlocked account with five available units and an empty store. -/
def richAcct : ClientAccount :=
  { client_id := 1, available := 5, held := 0, total := 5, locked := false
    txs := [] }

/-- The balance invariants of the spec: total is the sum of available and
held, and both components are nonnegative. -/
def BalancesOk (a : ClientAccount) : Prop :=
  a.total = a.available + a.held ∧ 0 ≤ a.held ∧ 0 ≤ a.available

/-- Every stored transaction carries a present, strictly positive amount.
This holds for every reachable account because only deposit and withdrawal
insert into the store, both under a positivity guard, and no branch ever
rewrites a stored entry. -/
def StorePositive (a : ClientAccount) : Prop :=
  ∀ p ∈ a.txs, ∃ q, p.2.amount = some q ∧ 0 < q

/-- The per-account inductive invariant. -/
def AccountOk (a : ClientAccount) : Prop :=
  BalancesOk a ∧ StorePositive a

/-- The accounts-map invariant: every account in the map satisfies the
per-account invariant. -/
def AccountsOk (m : List (Nat × ClientAccount)) : Prop :=
  ∀ p ∈ m, AccountOk p.2

/-- The conjunction of the guards of the branch of ClientAccount::update
that the record dispatches to, read off the source in order. -/
def updateGuard (a : ClientAccount) (r : Transaction) : Bool :=
  match r.tx_type with
  | TransactionType.Deposit =>
    !a.locked && !(txsLookup a.txs r.tx_id).isSome &&
      (match r.amount with
       | some q => decide (0 < q)
       | none => false)
  | TransactionType.Withdrawal =>
    !a.locked && !(txsLookup a.txs r.tx_id).isSome &&
      (match r.amount with
       | some q => decide (0 < q) && decide (q ≤ a.available)
       | none => false)
  | TransactionType.Dispute =>
    match txsLookup a.txs r.tx_id with
    | some tx =>
      tx.status == TransactionStatus.Verified &&
        (match tx.amount with
         | some q => decide (q ≤ a.available)
         | none => false)
    | none => false
  | TransactionType.Resolve =>
    match txsLookup a.txs r.tx_id with
    | some tx =>
      tx.status == TransactionStatus.Disputed &&
        (match tx.amount with
         | some q => decide (q ≤ a.held)
         | none => false)
    | none => false
  | TransactionType.Chargeback =>
    match txsLookup a.txs r.tx_id with
    | some tx =>
      tx.status == TransactionStatus.Resolved &&
        (match tx.amount with
         | some q => decide (q ≤ a.held)
         | none => false)
    | none => false

/-- The complete arithmetic update of the branch of ClientAccount::update
that the record dispatches to, assuming the branch guards hold (outside the
guards the value is irrelevant and defaults to the unchanged account). -/
def updateEffect (a : ClientAccount) (r : Transaction) : ClientAccount :=
  match r.tx_type with
  | TransactionType.Deposit =>
    match r.amount with
    | some q =>
      { a with
          total := a.total + q
          available := a.available + q
          txs := (r.tx_id, { r with status := TransactionStatus.Verified }) :: a.txs }
    | none => a
  | TransactionType.Withdrawal =>
    match r.amount with
    | some q =>
      { a with
          total := a.total - q
          available := a.available - q
          txs := (r.tx_id, { r with status := TransactionStatus.Verified }) :: a.txs }
    | none => a
  | TransactionType.Dispute =>
    match txsLookup a.txs r.tx_id with
    | some tx =>
      match tx.amount with
      | some q => { a with available := a.available - q, held := a.held + q }
      | none => a
    | none => a
  | TransactionType.Resolve =>
    match txsLookup a.txs r.tx_id with
    | some tx =>
      match tx.amount with
      | some q => { a with available := a.available + q, held := a.held - q }
      | none => a
    | none => a
  | TransactionType.Chargeback =>
    match txsLookup a.txs r.tx_id with
    | some tx =>
      match tx.amount with
      | some q => { a with total := a.total - q, held := a.held - q, locked := true }
      | none => a
    | none => a

/-!
Helper lemmas shared by the claim theorems below.
-/

/-- A successful store lookup yields a pair of the store. -/
theorem txsLookup_mem {l : List (Nat × Transaction)} {i : Nat} {t : Transaction}
    (h : txsLookup l i = some t) : (i, t) ∈ l := by
  induction l with
  | nil => simp [txsLookup] at h
  | cons p rest ih =>
    obtain ⟨k, t0⟩ := p
    by_cases hk : k = i
    · subst hk
      simp [txsLookup] at h
      subst h
      exact List.mem_cons_self _ _
    · simp [txsLookup, hk] at h
      exact List.mem_cons_of_mem _ (ih h)

/-- One processor step only rewrites the entry of the client id of the
record: that entry becomes the ordinary update of the present account, or of
a fresh account when absent, and every other entry is untouched. -/
theorem accLookup_applyRecord (m : List (Nat × ClientAccount)) (r : Transaction) (c : Nat) :
    accLookup (applyRecord m r) c =
      if c = r.client_id then
        some (ClientAccount.update ((accLookup m c).getD (ClientAccount.new c)) r)
      else accLookup m c := by
  induction m with
  | nil =>
    by_cases hc : c = r.client_id
    · simp [applyRecord, accLookup, hc]
    · simp [applyRecord, accLookup, hc, Ne.symm hc]
  | cons p rest ih =>
    obtain ⟨k, a⟩ := p
    simp only [applyRecord]
    by_cases hk : k = r.client_id
    · simp only [if_pos hk]
      by_cases hc : c = r.client_id
      · have hkc : k = c := by rw [hk, hc]
        simp [accLookup, hkc, hc]
      · have hkc : ¬ k = c := by rw [hk]; exact Ne.symm hc
        simp [accLookup, hkc, hc]
    · simp only [if_neg hk]
      by_cases hkc : k = c
      · have hc : ¬ c = r.client_id := by rw [← hkc]; exact hk
        simp [accLookup, hkc, hc]
      · simp [accLookup, hkc, ih]

/-- One processor step keeps the key list unchanged when the client id is
already present and appends it otherwise. -/
theorem applyRecord_keys (m : List (Nat × ClientAccount)) (r : Transaction) :
    (applyRecord m r).map Prod.fst =
      if r.client_id ∈ m.map Prod.fst then m.map Prod.fst
      else m.map Prod.fst ++ [r.client_id] := by
  induction m with
  | nil => simp [applyRecord]
  | cons p rest ih =>
    obtain ⟨k, a⟩ := p
    simp only [applyRecord]
    by_cases hk : k = r.client_id
    · simp [if_pos hk, List.map_cons, hk]
    · simp only [if_neg hk, List.map_cons, ih]
      have hmem : (r.client_id ∈ k :: rest.map Prod.fst) ↔ r.client_id ∈ rest.map Prod.fst := by
        simp [List.mem_cons, Ne.symm hk]
      by_cases hm : r.client_id ∈ rest.map Prod.fst
      · simp [hm, hmem]
      · simp [hm, hmem]

/-- Deposit preserves the per-account invariant. -/
theorem deposit_AccountOk (a : ClientAccount) (r : Transaction) (h : AccountOk a) :
    AccountOk (a.deposit r) := by
  obtain ⟨⟨htot, hheld, hav⟩, hstore⟩ := h
  unfold ClientAccount.deposit
  split
  · exact ⟨⟨htot, hheld, hav⟩, hstore⟩
  split
  · exact ⟨⟨htot, hheld, hav⟩, hstore⟩
  split
  · exact ⟨⟨htot, hheld, hav⟩, hstore⟩
  rename_i q hq
  split
  · rename_i hpos
    refine ⟨⟨?_, ?_, ?_⟩, ?_⟩
    · simp only
      linarith
    · simpa using hheld
    · simp only
      linarith
    · intro p hp
      simp only at hp
      rcases List.mem_cons.mp hp with hp | hp
      · subst hp
        exact ⟨q, hq, hpos⟩
      · exact hstore p hp
  · exact ⟨⟨htot, hheld, hav⟩, hstore⟩

/-- Withdrawal preserves the per-account invariant. -/
theorem withdrawal_AccountOk (a : ClientAccount) (r : Transaction) (h : AccountOk a) :
    AccountOk (a.withdrawal r) := by
  obtain ⟨⟨htot, hheld, hav⟩, hstore⟩ := h
  unfold ClientAccount.withdrawal
  split
  · exact ⟨⟨htot, hheld, hav⟩, hstore⟩
  split
  · exact ⟨⟨htot, hheld, hav⟩, hstore⟩
  split
  · exact ⟨⟨htot, hheld, hav⟩, hstore⟩
  rename_i q hq
  split
  · rename_i hpos
    split
    · rename_i hle
      refine ⟨⟨?_, ?_, ?_⟩, ?_⟩
      · simp only
        linarith
      · simpa using hheld
      · simp only
        linarith
      · intro p hp
        simp only at hp
        rcases List.mem_cons.mp hp with hp | hp
        · subst hp
          exact ⟨q, hq, hpos⟩
        · exact hstore p hp
    · exact ⟨⟨htot, hheld, hav⟩, hstore⟩
  · exact ⟨⟨htot, hheld, hav⟩, hstore⟩

/-- Dispute preserves the per-account invariant; positivity of the disputed
amount comes from the store invariant. -/
theorem dispute_AccountOk (a : ClientAccount) (r : Transaction) (h : AccountOk a) :
    AccountOk (a.dispute r) := by
  obtain ⟨⟨htot, hheld, hav⟩, hstore⟩ := h
  unfold ClientAccount.dispute
  split
  · exact ⟨⟨htot, hheld, hav⟩, hstore⟩
  rename_i tx htx
  split
  · split
    · exact ⟨⟨htot, hheld, hav⟩, hstore⟩
    rename_i q hq
    split
    · rename_i hle
      obtain ⟨q0, hq0, hq0pos⟩ := hstore (r.tx_id, tx) (txsLookup_mem htx)
      have hqq : q0 = q := Option.some.inj (hq0.symm.trans hq)
      subst hqq
      refine ⟨⟨?_, ?_, ?_⟩, hstore⟩
      · simp only
        linarith
      · simp only
        linarith
      · simp only
        linarith
    · exact ⟨⟨htot, hheld, hav⟩, hstore⟩
  · exact ⟨⟨htot, hheld, hav⟩, hstore⟩

/-- Resolve preserves the per-account invariant. -/
theorem resolve_AccountOk (a : ClientAccount) (r : Transaction) (h : AccountOk a) :
    AccountOk (a.resolve r) := by
  obtain ⟨⟨htot, hheld, hav⟩, hstore⟩ := h
  unfold ClientAccount.resolve
  split
  · exact ⟨⟨htot, hheld, hav⟩, hstore⟩
  rename_i tx htx
  split
  · split
    · exact ⟨⟨htot, hheld, hav⟩, hstore⟩
    rename_i q hq
    split
    · rename_i hle
      obtain ⟨q0, hq0, hq0pos⟩ := hstore (r.tx_id, tx) (txsLookup_mem htx)
      have hqq : q0 = q := Option.some.inj (hq0.symm.trans hq)
      subst hqq
      refine ⟨⟨?_, ?_, ?_⟩, hstore⟩
      · simp only
        linarith
      · simp only
        linarith
      · simp only
        linarith
    · exact ⟨⟨htot, hheld, hav⟩, hstore⟩
  · exact ⟨⟨htot, hheld, hav⟩, hstore⟩

/-- Chargeback preserves the per-account invariant. -/
theorem chargeback_AccountOk (a : ClientAccount) (r : Transaction) (h : AccountOk a) :
    AccountOk (a.chargeback r) := by
  obtain ⟨⟨htot, hheld, hav⟩, hstore⟩ := h
  unfold ClientAccount.chargeback
  split
  · exact ⟨⟨htot, hheld, hav⟩, hstore⟩
  rename_i tx htx
  split
  · split
    · exact ⟨⟨htot, hheld, hav⟩, hstore⟩
    rename_i q hq
    split
    · rename_i hle
      refine ⟨⟨?_, ?_, ?_⟩, hstore⟩
      · simp only
        linarith
      · simp only
        linarith
      · simpa using hav
    · exact ⟨⟨htot, hheld, hav⟩, hstore⟩
  · exact ⟨⟨htot, hheld, hav⟩, hstore⟩

/-- Update preserves the per-account invariant. -/
theorem update_AccountOk (a : ClientAccount) (r : Transaction) (h : AccountOk a) :
    AccountOk (a.update r) := by
  unfold ClientAccount.update
  split
  · exact deposit_AccountOk a r h
  · exact withdrawal_AccountOk a r h
  · exact dispute_AccountOk a r h
  · exact resolve_AccountOk a r h
  · exact chargeback_AccountOk a r h

/-- A fresh account satisfies the per-account invariant. -/
theorem new_AccountOk (c : Nat) : AccountOk (ClientAccount.new c) := by
  refine ⟨⟨?_, ?_, ?_⟩, ?_⟩ <;> simp [ClientAccount.new, StorePositive]

/-- One processor step preserves the accounts-map invariant. -/
theorem applyRecord_AccountsOk (m : List (Nat × ClientAccount)) (r : Transaction)
    (h : AccountsOk m) : AccountsOk (applyRecord m r) := by
  induction m with
  | nil =>
    intro p hp
    simp [applyRecord] at hp
    subst hp
    exact update_AccountOk _ _ (new_AccountOk _)
  | cons q rest ih =>
    obtain ⟨k, a⟩ := q
    simp only [applyRecord]
    split
    · intro p hp
      rcases List.mem_cons.mp hp with hp | hp
      · subst hp
        exact update_AccountOk _ _ (h (k, a) (List.mem_cons_self _ _))
      · exact h p (List.mem_cons_of_mem _ hp)
    · intro p hp
      rcases List.mem_cons.mp hp with hp | hp
      · subst hp
        exact h (k, a) (List.mem_cons_self _ _)
      · exact ih (fun q hq => h q (List.mem_cons_of_mem _ hq)) p hp

/-- The whole processor run preserves the accounts-map invariant. -/
theorem foldl_AccountsOk (rs : List Transaction) :
    ∀ m : List (Nat × ClientAccount), AccountsOk m → AccountsOk (rs.foldl applyRecord m) := by
  induction rs with
  | nil => intro m h; simpa using h
  | cons r rs ih =>
    intro m h
    simpa using ih (applyRecord m r) (applyRecord_AccountsOk m r h)

/-- An account is present after a run exactly when its client id occurs in
the consumed records or it was present before. -/
theorem accLookup_foldl_isSome (rs : List Transaction) :
    ∀ (m : List (Nat × ClientAccount)) (c : Nat),
      (accLookup (rs.foldl applyRecord m) c).isSome = true ↔
        c ∈ rs.map Transaction.client_id ∨ (accLookup m c).isSome = true := by
  induction rs with
  | nil => simp
  | cons r rs ih =>
    intro m c
    simp only [List.foldl_cons, List.map_cons, List.mem_cons]
    rw [ih]
    rw [accLookup_applyRecord]
    by_cases hc : c = r.client_id
    · simp [hc]
    · simp [hc]

/-- When every record of a given client is rejected against a fresh account,
processing keeps the account of that client fresh (or absent). -/
theorem accLookup_foldl_rejected (c : Nat) (rs : List Transaction) :
    ∀ m : List (Nat × ClientAccount),
      (∀ r ∈ rs, r.client_id = c →
        ClientAccount.update (ClientAccount.new c) r = ClientAccount.new c) →
      (accLookup m c = none ∨ accLookup m c = some (ClientAccount.new c)) →
      (accLookup (rs.foldl applyRecord m) c = none ∨
        accLookup (rs.foldl applyRecord m) c = some (ClientAccount.new c)) := by
  induction rs with
  | nil => intro m _ hm; simpa using hm
  | cons r rs ih =>
    intro m hrej hm
    simp only [List.foldl_cons]
    refine ih (applyRecord m r) (fun r0 hr0 => hrej r0 (List.mem_cons_of_mem _ hr0)) ?_
    rw [accLookup_applyRecord]
    by_cases hc : c = r.client_id
    · right
      rw [if_pos hc]
      have hnew : (accLookup m c).getD (ClientAccount.new c) = ClientAccount.new c := by
        rcases hm with hm | hm <;> simp [hm]
      rw [hnew, hrej r (List.mem_cons_self _ _) hc.symm]
    · rw [if_neg hc]
      exact hm

/-- Processing never duplicates a client key. -/
theorem process_keys_nodup (rs : List Transaction) :
    ∀ m : List (Nat × ClientAccount),
      (m.map Prod.fst).Nodup → ((rs.foldl applyRecord m).map Prod.fst).Nodup := by
  induction rs with
  | nil => intro m h; simpa using h
  | cons r rs ih =>
    intro m h
    simp only [List.foldl_cons]
    refine ih (applyRecord m r) ?_
    rw [applyRecord_keys]
    split
    · exact h
    · rename_i hnm
      simp [List.nodup_append, h, hnm]

/-!
Claim theorems.
-/

/-- C1: the claim states that a Chargeback whose stored transaction is in
status Disputed with held at least the stored amount removes the amount from
total and held, locks the account, and marks the stored transaction
Chargebacked, while a Chargeback against a stored transaction not in status
Disputed changes nothing. The code does the opposite: on a Disputed stored
transaction it changes nothing (first conjunct), while on a Resolved stored
transaction, with held 5 and the stored amount 5, it removes the amount from
total and held and locks the account, leaving the stored status Resolved
rather than setting Chargebacked (second conjunct). This is the inconsistency
the spec flags and fixes: the claim describes the intended behavior and the
code diverges from it. -/
theorem chargeback_code_behavior :
    ClientAccount.update (heldAcct TransactionStatus.Disputed) (cbRec 1 1) =
        heldAcct TransactionStatus.Disputed
      ∧ ClientAccount.update (heldAcct TransactionStatus.Resolved) (cbRec 1 1) =
          { client_id := 1, available := 0, held := 0, total := 0, locked := true
            txs := [(1, storedDep TransactionStatus.Resolved)] } := by
  constructor
  · norm_num [ClientAccount.update, ClientAccount.chargeback, heldAcct, storedDep, cbRec,
      txsLookup]
  · norm_num [ClientAccount.update, ClientAccount.chargeback, heldAcct, storedDep, cbRec,
      txsLookup]

/-- C2: the claim states that a Dispute against a stored Verified transaction
with a present amount and sufficient available funds moves the amount from
available to held, keeps total unchanged, and sets the stored status to
Disputed. The code performs the balance moves but assigns the new status to
the by-value record parameter that is immediately dropped, so the stored
transaction keeps status Verified: after a deposit of 5 and a dispute of it,
available is 0, held is 5, total is 5, and the stored entry still reads
Verified, contradicting the final clause of the claim. -/
theorem dispute_code_behavior :
    accLookup (process_transactions [depRec 1 1 5, dispRec 1 1]) 1 =
      some { client_id := 1, available := 0, held := 5, total := 5, locked := false
             txs := [(1, { tx_type := TransactionType.Deposit, client_id := 1, tx_id := 1
                           amount := some 5, status := TransactionStatus.Verified })] } := by
  norm_num [process_transactions, applyRecord, accLookup, ClientAccount.update,
    ClientAccount.deposit, ClientAccount.dispute, ClientAccount.new, depRec, dispRec, txsLookup]

/-- C3: the claim states that Dispute followed by Resolve on the same
verified transaction restores available and held to their pre-dispute
values. In the code the dispute never marks the stored transaction Disputed,
so the subsequent Resolve is rejected by its status guard: after deposit of
5, dispute, resolve, the account ends with available 0 and held 5 instead of
the pre-dispute available 5 and held 0. The repository test named
test_success_resolve asserts the restored balances, so the code contradicts
its own test. -/
theorem dispute_resolve_code_behavior :
    accLookup (process_transactions [depRec 1 1 5, dispRec 1 1, resRec 1 1]) 1 =
      some { client_id := 1, available := 0, held := 5, total := 5, locked := false
             txs := [(1, { tx_type := TransactionType.Deposit, client_id := 1, tx_id := 1
                           amount := some 5, status := TransactionStatus.Verified })] } := by
  norm_num [process_transactions, applyRecord, accLookup, ClientAccount.update,
    ClientAccount.deposit, ClientAccount.dispute, ClientAccount.resolve, ClientAccount.new,
    depRec, dispRec, resRec, txsLookup]

/-- C4: the claim states that a Resolve against a stored Disputed transaction
with held at least the stored amount moves the amount from held back to
available and sets the stored status to Resolved. The code performs the
balance moves but assigns the new status to the dropped by-value record
parameter, so the stored transaction keeps status Disputed: resolving an
account that holds 5 under a Disputed stored transaction of amount 5 yields
available 5 and held 0 as claimed, yet the stored entry still reads Disputed,
contradicting the status clause of the claim. -/
theorem resolve_code_behavior :
    ClientAccount.update (heldAcct TransactionStatus.Disputed) (resRec 1 1) =
      { client_id := 1, available := 5, held := 0, total := 5, locked := false
        txs := [(1, storedDep TransactionStatus.Disputed)] } := by
  norm_num [ClientAccount.update, ClientAccount.resolve, heldAcct, storedDep, resRec, txsLookup]

/-- C5: for every input sequence, every account produced by processing it
satisfies total = available + held, held nonnegative and available
nonnegative. Because the sequence is universally quantified, the state after
each record of any run is covered: it is the final state of processing the
corresponding prefix. -/
theorem process_transactions_invariants (rs : List Transaction) (c : Nat) (a : ClientAccount)
    (h : (c, a) ∈ process_transactions rs) :
    a.total = a.available + a.held ∧ 0 ≤ a.held ∧ 0 ≤ a.available := by
  have hok := foldl_AccountsOk rs [] (by intro p hp; simp at hp) (c, a) h
  exact hok.1

/-- Witness for C5 at the singleton run consisting of one deposit of 5. -/
theorem process_transactions_invariants_witness :
    (ClientAccount.update (ClientAccount.new 1) (depRec 1 1 5)).total =
        (ClientAccount.update (ClientAccount.new 1) (depRec 1 1 5)).available +
          (ClientAccount.update (ClientAccount.new 1) (depRec 1 1 5)).held
      ∧ 0 ≤ (ClientAccount.update (ClientAccount.new 1) (depRec 1 1 5)).held
      ∧ 0 ≤ (ClientAccount.update (ClientAccount.new 1) (depRec 1 1 5)).available :=
  process_transactions_invariants [depRec 1 1 5] 1 _
    (by simp [process_transactions, applyRecord, depRec])

/-- C6 counterexample: the claim states that a locked account ignores every
record kind, but only deposit and withdrawal consult the locked flag; a
Dispute against a locked account holding a verified stored transaction of 5
with 5 available moves the funds and changes the account. -/
theorem locked_account_dispute_mutates :
    ClientAccount.update lockedAcct (dispRec 1 1) ≠ lockedAcct := by
  norm_num [ClientAccount.update, ClientAccount.dispute, lockedAcct, storedDep, dispRec,
    txsLookup]

/-- C6 as amended: for every account whose locked flag is true, applying a
Deposit or a Withdrawal record leaves the account entirely unchanged;
Dispute, Resolve and Chargeback do not consult the locked flag. -/
theorem locked_rejects_deposit_and_withdrawal (a : ClientAccount) (r : Transaction)
    (hl : a.locked = true)
    (hty : r.tx_type = TransactionType.Deposit ∨ r.tx_type = TransactionType.Withdrawal) :
    a.update r = a := by
  rcases hty with hty | hty
  · simp [ClientAccount.update, hty, ClientAccount.deposit, hl]
  · simp [ClientAccount.update, hty, ClientAccount.withdrawal, hl]

/-- Witness for the amended C6 at a concrete locked account and a deposit. -/
theorem locked_rejects_deposit_and_withdrawal_witness :
    ClientAccount.update lockedAcct (depRec 1 2 10) = lockedAcct :=
  locked_rejects_deposit_and_withdrawal lockedAcct (depRec 1 2 10) rfl (Or.inl rfl)

/-- C7: every update either performs the complete arithmetic effect of the
branch the record dispatches to, with all the guards of that branch holding,
or leaves the account completely unchanged because some guard of the branch
fails. -/
theorem update_atomic (a : ClientAccount) (r : Transaction) :
    (updateGuard a r = true ∧ a.update r = updateEffect a r)
      ∨ (updateGuard a r = false ∧ a.update r = a) := by
  cases hty : r.tx_type with
  | Deposit =>
    by_cases hl : a.locked = true
    · right
      simp [updateGuard, ClientAccount.update, ClientAccount.deposit, hty, hl]
    · by_cases hdup : (txsLookup a.txs r.tx_id).isSome = true
      · right
        simp [updateGuard, ClientAccount.update, ClientAccount.deposit, hty, hl, hdup]
      · cases hamt : r.amount with
        | none =>
          right
          simp [updateGuard, ClientAccount.update, ClientAccount.deposit, hty, hl, hdup, hamt]
        | some q =>
          by_cases hq : 0 < q
          · left
            simp [updateGuard, updateEffect, ClientAccount.update, ClientAccount.deposit,
              hty, hl, hdup, hamt, hq]
          · right
            simp [updateGuard, ClientAccount.update, ClientAccount.deposit,
              hty, hl, hdup, hamt, hq]
  | Withdrawal =>
    by_cases hl : a.locked = true
    · right
      simp [updateGuard, ClientAccount.update, ClientAccount.withdrawal, hty, hl]
    · by_cases hdup : (txsLookup a.txs r.tx_id).isSome = true
      · right
        simp [updateGuard, ClientAccount.update, ClientAccount.withdrawal, hty, hl, hdup]
      · cases hamt : r.amount with
        | none =>
          right
          simp [updateGuard, ClientAccount.update, ClientAccount.withdrawal, hty, hl, hdup, hamt]
        | some q =>
          by_cases hq : 0 < q
          · by_cases hle : q ≤ a.available
            · left
              simp [updateGuard, updateEffect, ClientAccount.update, ClientAccount.withdrawal,
                hty, hl, hdup, hamt, hq, hle]
            · right
              simp [updateGuard, ClientAccount.update, ClientAccount.withdrawal,
                hty, hl, hdup, hamt, hq, hle]
          · right
            simp [updateGuard, ClientAccount.update, ClientAccount.withdrawal,
              hty, hl, hdup, hamt, hq]
  | Dispute =>
    cases htx : txsLookup a.txs r.tx_id with
    | none =>
      right
      simp [updateGuard, ClientAccount.update, ClientAccount.dispute, hty, htx]
    | some tx =>
      cases hst : tx.status with
      | Verified =>
        cases hamt : tx.amount with
        | none =>
          right
          simp [updateGuard, ClientAccount.update, ClientAccount.dispute, hty, htx, hst, hamt]
        | some q =>
          by_cases hle : q ≤ a.available
          · left
            simp [updateGuard, updateEffect, ClientAccount.update, ClientAccount.dispute,
              hty, htx, hst, hamt, hle]
          · right
            simp [updateGuard, ClientAccount.update, ClientAccount.dispute,
              hty, htx, hst, hamt, hle]
      | Loaded =>
        right
        simp [updateGuard, ClientAccount.update, ClientAccount.dispute, hty, htx, hst]
      | Disputed =>
        right
        simp [updateGuard, ClientAccount.update, ClientAccount.dispute, hty, htx, hst]
      | Resolved =>
        right
        simp [updateGuard, ClientAccount.update, ClientAccount.dispute, hty, htx, hst]
      | Chargebacked =>
        right
        simp [updateGuard, ClientAccount.update, ClientAccount.dispute, hty, htx, hst]
  | Resolve =>
    cases htx : txsLookup a.txs r.tx_id with
    | none =>
      right
      simp [updateGuard, ClientAccount.update, ClientAccount.resolve, hty, htx]
    | some tx =>
      cases hst : tx.status with
      | Disputed =>
        cases hamt : tx.amount with
        | none =>
          right
          simp [updateGuard, ClientAccount.update, ClientAccount.resolve, hty, htx, hst, hamt]
        | some q =>
          by_cases hle : q ≤ a.held
          · left
            simp [updateGuard, updateEffect, ClientAccount.update, ClientAccount.resolve,
              hty, htx, hst, hamt, hle]
          · right
            simp [updateGuard, ClientAccount.update, ClientAccount.resolve,
              hty, htx, hst, hamt, hle]
      | Loaded =>
        right
        simp [updateGuard, ClientAccount.update, ClientAccount.resolve, hty, htx, hst]
      | Verified =>
        right
        simp [updateGuard, ClientAccount.update, ClientAccount.resolve, hty, htx, hst]
      | Resolved =>
        right
        simp [updateGuard, ClientAccount.update, ClientAccount.resolve, hty, htx, hst]
      | Chargebacked =>
        right
        simp [updateGuard, ClientAccount.update, ClientAccount.resolve, hty, htx, hst]
  | Chargeback =>
    cases htx : txsLookup a.txs r.tx_id with
    | none =>
      right
      simp [updateGuard, ClientAccount.update, ClientAccount.chargeback, hty, htx]
    | some tx =>
      cases hst : tx.status with
      | Resolved =>
        cases hamt : tx.amount with
        | none =>
          right
          simp [updateGuard, ClientAccount.update, ClientAccount.chargeback, hty, htx, hst, hamt]
        | some q =>
          by_cases hle : q ≤ a.held
          · left
            simp [updateGuard, updateEffect, ClientAccount.update, ClientAccount.chargeback,
              hty, htx, hst, hamt, hle]
          · right
            simp [updateGuard, ClientAccount.update, ClientAccount.chargeback,
              hty, htx, hst, hamt, hle]
      | Loaded =>
        right
        simp [updateGuard, ClientAccount.update, ClientAccount.chargeback, hty, htx, hst]
      | Verified =>
        right
        simp [updateGuard, ClientAccount.update, ClientAccount.chargeback, hty, htx, hst]
      | Disputed =>
        right
        simp [updateGuard, ClientAccount.update, ClientAccount.chargeback, hty, htx, hst]
      | Chargebacked =>
        right
        simp [updateGuard, ClientAccount.update, ClientAccount.chargeback, hty, htx, hst]

/-- C8: on an unlocked account, a Withdrawal with a fresh transaction id and
a present positive amount removes the amount from available and total and
registers the record as Verified whenever the amount does not exceed
available (so a withdrawal of exactly the available balance succeeds), and
leaves the account unchanged whenever the amount strictly exceeds
available. -/
theorem withdrawal_behavior (a : ClientAccount) (r : Transaction) (q : Rat)
    (hl : a.locked = false) (hfresh : txsLookup a.txs r.tx_id = none)
    (hty : r.tx_type = TransactionType.Withdrawal) (hamt : r.amount = some q) (hq : 0 < q) :
    (q ≤ a.available →
      a.update r =
        { a with
            total := a.total - q
            available := a.available - q
            txs := (r.tx_id, { r with status := TransactionStatus.Verified }) :: a.txs })
      ∧ (a.available < q → a.update r = a) := by
  constructor
  · intro hle
    simp [ClientAccount.update, hty, ClientAccount.withdrawal, hl, hfresh, hamt, hq, hle]
  · intro hgt
    simp [ClientAccount.update, hty, ClientAccount.withdrawal, hl, hfresh, hamt, hq,
      not_le.mpr hgt]

/-- Witness for C8: withdrawing exactly the five available units. -/
theorem withdrawal_behavior_witness :
    ((5 : Rat) ≤ richAcct.available →
      ClientAccount.update richAcct (wdRec 1 2 5) =
        { richAcct with
            total := richAcct.total - 5
            available := richAcct.available - 5
            txs := ((wdRec 1 2 5).tx_id, { wdRec 1 2 5 with status := TransactionStatus.Verified })
              :: richAcct.txs })
      ∧ (richAcct.available < 5 → ClientAccount.update richAcct (wdRec 1 2 5) = richAcct) :=
  withdrawal_behavior richAcct (wdRec 1 2 5) 5 rfl rfl rfl rfl (by norm_num)

/-- C9: a Deposit or Withdrawal whose transaction id is already registered in
the account leaves the account unchanged; a processor step leaves every
account of a different client id untouched; and the account of the client id
of the record receives the ordinary update of its own state, independent of
the transaction ids stored in any other account. -/
theorem duplicate_tx_handling :
    (∀ (a : ClientAccount) (r : Transaction),
        (r.tx_type = TransactionType.Deposit ∨ r.tx_type = TransactionType.Withdrawal) →
        (txsLookup a.txs r.tx_id).isSome = true →
        a.update r = a)
      ∧ (∀ (m : List (Nat × ClientAccount)) (r : Transaction) (c : Nat),
          c ≠ r.client_id → accLookup (applyRecord m r) c = accLookup m c)
      ∧ (∀ (m : List (Nat × ClientAccount)) (r : Transaction),
          accLookup (applyRecord m r) r.client_id =
            some (ClientAccount.update
              ((accLookup m r.client_id).getD (ClientAccount.new r.client_id)) r)) := by
  refine ⟨?_, ?_, ?_⟩
  · intro a r hty hdup
    have hd : a.deposit r = a := by simp [ClientAccount.deposit, hdup]
    have hw : a.withdrawal r = a := by simp [ClientAccount.withdrawal, hdup]
    unfold ClientAccount.update
    rcases hty with hty | hty <;> rw [hty] <;> simp [hd, hw]
  · intro m r c hc
    rw [accLookup_applyRecord, if_neg hc]
  · intro m r
    rw [accLookup_applyRecord, if_pos rfl]

/-- Witness for C9: a duplicate deposit of transaction id 1 on the client 1
account is rejected, and a deposit with the same transaction id 1 for client
2 leaves the client 1 account alone and applies to the client 2 account. -/
theorem duplicate_tx_handling_witness :
    ClientAccount.update (heldAcct TransactionStatus.Verified) (depRec 1 1 7) =
        heldAcct TransactionStatus.Verified
      ∧ accLookup (applyRecord [(1, heldAcct TransactionStatus.Verified)] (depRec 2 1 7)) 1 =
          accLookup [(1, heldAcct TransactionStatus.Verified)] 1
      ∧ accLookup (applyRecord [(1, heldAcct TransactionStatus.Verified)] (depRec 2 1 7)) 2 =
          some (ClientAccount.update
            ((accLookup [(1, heldAcct TransactionStatus.Verified)] 2).getD (ClientAccount.new 2))
            (depRec 2 1 7)) := by
  refine ⟨?_, ?_, ?_⟩
  · exact duplicate_tx_handling.1 _ _ (Or.inl rfl)
      (by simp [heldAcct, storedDep, depRec, txsLookup])
  · exact duplicate_tx_handling.2.1 _ _ _ (by decide)
  · exact duplicate_tx_handling.2.2 [(1, heldAcct TransactionStatus.Verified)] (depRec 2 1 7)

/-- C10: the processed accounts map holds an account exactly for the client
ids occurring in the input, with no duplicated client key; and when every
record of a client is rejected by its guards against a fresh account, that
client still appears, with all balances zero, unlocked, and an empty
transaction store. -/
theorem process_transactions_account_per_client (rs : List Transaction) (c : Nat) :
    ((accLookup (process_transactions rs) c).isSome = true ↔ c ∈ rs.map Transaction.client_id)
      ∧ ((process_transactions rs).map Prod.fst).Nodup
      ∧ ((∀ r ∈ rs, r.client_id = c →
            ClientAccount.update (ClientAccount.new c) r = ClientAccount.new c) →
          c ∈ rs.map Transaction.client_id →
          accLookup (process_transactions rs) c =
            some { client_id := c, available := 0, held := 0, total := 0, locked := false
                   txs := [] }) := by
  refine ⟨?_, ?_, ?_⟩
  · unfold process_transactions
    rw [accLookup_foldl_isSome]
    simp [accLookup]
  · exact process_keys_nodup rs [] (by simp)
  · intro hrej hmem
    have h2 := accLookup_foldl_rejected c rs [] hrej (Or.inl rfl)
    have h1 : (accLookup (process_transactions rs) c).isSome = true := by
      unfold process_transactions
      rw [accLookup_foldl_isSome]
      exact Or.inl hmem
    unfold process_transactions at h1 ⊢
    rcases h2 with h2 | h2
    · rw [h2] at h1
      simp at h1
    · rw [h2]
      rfl

/-- Witness for C10: a single deposit of amount zero for client 7 is rejected
by the positivity guard, yet client 7 appears in the result with the fresh
all-zero account. -/
theorem process_transactions_account_per_client_witness :
    accLookup (process_transactions [depRec 7 1 0]) 7 =
      some { client_id := 7, available := 0, held := 0, total := 0, locked := false
             txs := [] } :=
  (process_transactions_account_per_client [depRec 7 1 0] 7).2.2
    (by
      intro r hr hc
      simp only [List.mem_singleton] at hr
      subst hr
      norm_num [ClientAccount.update, ClientAccount.deposit, ClientAccount.new, depRec,
        txsLookup])
    (by simp [depRec])

end PaymentEngine
